import Mathlib

/-!
Shallow embedding of the Yolo-Explorer backend (code-to-vector indexing
pipeline and retrieval-augmented answer pipeline) and verification of the
specification's claims about it.

The embedded modules are:
* `src/backend/src/indexer.py`  (`CodeIndexer`)
* `src/backend/scripts/setup_index.py` (`main`)
* `src/backend/src/generator.py` (`ResponseGenerator`)
* `src/backend/src/main.py`     (the `/ask` endpoint)

External effects (the Python `ast` parser, the filesystem walk, the
sentence-transformers encoder, the MongoDB vector search and the OpenRouter
HTTP call) are modelled as data/oracles supplied to the embedded functions;
everything the repository's own code does with those results is translated
statement by statement.
-/

set_option maxHeartbeats 1000000

namespace YoloSpec

/-! ## Python-level error values

Python exceptions that the embedded code can raise or catch.  `strOfErr`
is Python's `str(e)` for each of them (for `KeyError` Python prints the
repr of the missing key, i.e. the key in quotes; for the FastAPI/Starlette
`HTTPException` it prints `f"{status_code}: {detail}"`). -/

inductive PyErr where
  | keyError (key : String)
  | valueError (msg : String)
  | typeError (msg : String)
  | indexError (msg : String)
  | genericError (msg : String)
  | httpException (status : Nat) (detail : String)
deriving DecidableEq

def strOfErr : PyErr → String
  | .keyError k => "'" ++ k ++ "'"
  | .valueError m => m
  | .typeError m => m
  | .indexError m => m
  | .genericError m => m
  | .httpException s d => toString s ++ ": " ++ d

/-- Python dict access `d[k]` on a value modelled as `Option α`:
a missing key raises `KeyError(k)`. -/
def pyGet {α : Type} (v : Option α) (k : String) : Except PyErr α :=
  match v with
  | some x => .ok x
  | none => .error (.keyError k)

/-! ## Indexer data model (`src/backend/src/indexer.py`)

A Python `ast` node, reduced to the attributes the indexer consults:
`isinstance` class (kind), `name`, `lineno`, `end_lineno`,
`ast.get_docstring` result, and child nodes (`ast.walk` worklist).
The `ast` module itself is the Python standard library (external to the
repository), so a parsed tree is input data of the model. -/

inductive PyKind where
  | module | functionDef | asyncFunctionDef | classDef | other
deriving DecidableEq

inductive PyNode where
  | mk (kind : PyKind) (name : String) (lineno : Nat) (end_lineno : Option Nat)
      (docstring : Option String) (body : List PyNode)

def PyNode.kind : PyNode → PyKind
  | .mk k _ _ _ _ _ => k

def PyNode.name : PyNode → String
  | .mk _ n _ _ _ _ => n

def PyNode.lineno : PyNode → Nat
  | .mk _ _ l _ _ _ => l

def PyNode.end_lineno : PyNode → Option Nat
  | .mk _ _ _ e _ _ => e

def PyNode.docstring : PyNode → Option String
  | .mk _ _ _ _ d _ => d

def PyNode.body : PyNode → List PyNode
  | .mk _ _ _ _ _ b => b

mutual
def nodeSize : PyNode → Nat
  | .mk _ _ _ _ _ b => 1 + nodesSize b
def nodesSize : List PyNode → Nat
  | [] => 0
  | n :: rest => nodeSize n + nodesSize rest
end

theorem nodesSize_append (a b : List PyNode) :
    nodesSize (a ++ b) = nodesSize a + nodesSize b := by
  induction a with
  | nil => simp [nodesSize]
  | cons n rest ih =>
      rw [List.cons_append]
      show nodeSize n + nodesSize (rest ++ b) = nodeSize n + nodesSize rest + nodesSize b
      rw [ih]
      omega

/-- `ast.walk`: breadth-first traversal over a worklist (CPython implements
it with a `deque` seeded with the root; each popped node is yielded and its
children are appended).  The fuel argument is exactly the number of nodes
still reachable from the queue, so it never runs out. -/
def walkF : Nat → List PyNode → List PyNode
  | _, [] => []
  | 0, _ :: _ => []
  | fuel + 1, n :: rest => n :: walkF fuel (rest ++ n.body)

/-- `ast.walk(tree)` where `tree` is the `ast.Module` produced by
`ast.parse`; the module node is visited first and is never a
function/class definition. -/
def walk (moduleBody : List PyNode) : List PyNode :=
  walkF (nodesSize [PyNode.mk .module "" 0 none none moduleBody])
    [PyNode.mk .module "" 0 none none moduleBody]

/-- Python `s.split('\n')` (always non-empty; `"".split('\n') == ['']`). -/
def splitLinesAux (acc : List Char) : List Char → List String
  | [] => [String.mk acc.reverse]
  | c :: rest =>
      if c = '\n' then String.mk acc.reverse :: splitLinesAux [] rest
      else splitLinesAux (c :: acc) rest

def splitLines (s : String) : List String := splitLinesAux [] s.data

/-- The dict built by `CodeIndexer._extract_node` (all keys always present). -/
structure Chunk where
  file_path : String
  name : String
  type : String
  code : String
  docstring : String
  lineno : Nat
  text_for_embedding : String
deriving DecidableEq

/-- `CodeIndexer._extract_node(node, source, file_path)`.

`relPath` stands for `str(file_path.relative_to(self.source_dir))`, which
is pure path arithmetic on a path produced by `rglob` under `source_dir`
(always a subpath).  The surrounding `try/except` returns `None` on an
extraction error; every operation in the body (`str.split`, slicing,
`'\n'.join`, `ast.get_docstring` on a def/class node) is total, so the
model returns the chunk directly. -/
def extractNode (node : PyNode) (source : String) (relPath : String) : Chunk :=
  let lines := splitLines source
  let start := node.lineno - 1
  let stop := match node.end_lineno with
    | some e => e
    | none => start + 10
  let code := "\n".intercalate ((lines.drop start).take (stop - start))
  let docstring := node.docstring.getD ""
  { file_path := relPath
    name := node.name
    type := if node.kind = PyKind.classDef then "class" else "function"
    code := code
    docstring := docstring
    lineno := node.lineno
    text_for_embedding := node.name ++ "\n" ++ docstring ++ "\n" ++ code }

/-- The `isinstance(node, (ast.FunctionDef, ast.ClassDef))` test of
`CodeIndexer._parse_file`.  Note `ast.AsyncFunctionDef` is a distinct
class, not a subclass of `ast.FunctionDef`, so it never matches. -/
def isDefOrClass (n : PyNode) : Bool :=
  n.kind = PyKind.functionDef || n.kind = PyKind.classDef

/-- The extraction loop of `CodeIndexer._parse_file`: walk the tree, keep
the function/class definition nodes, extract each.  (`if chunk:` always
holds, see `extractNode`.) -/
def parseChunks (moduleBody : List PyNode) (source relPath : String) : List Chunk :=
  ((walk moduleBody).filter isDefOrClass).map (fun n => extractNode n source relPath)

/-- One `.py` file as `CodeIndexer._parse_file` sees it: its printed path
(as logged), its path relative to `source_dir`, its decoded text, and the
outcome of `ast.parse` — either the module body or a `SyntaxError` with
`e.lineno` and `e.msg`.  (The UTF-8/latin-1 read fallback of
`_parse_file` lines 9-17 concerns no claim; the model starts from the
decoded source.) -/
structure PyFile where
  path : String
  relPath : String
  source : String
  parsed : Except (Nat × String) (List PyNode)

/-- `CodeIndexer._parse_file` from the `ast.parse` call on: a
`SyntaxError e` is re-raised as
`SyntaxError(f"Invalid Python syntax at line {e.lineno}: {e.msg}")`. -/
def parseFilePy (f : PyFile) : Except String (List Chunk) :=
  match f.parsed with
  | .error (ln, msg) =>
      .error ("Invalid Python syntax at line " ++ toString ln ++ ": " ++ msg)
  | .ok body => .ok (parseChunks body f.source f.relPath)

inductive LogLevel where
  | debug | info | warning | error
deriving DecidableEq

abbrev LogEntry := LogLevel × String

/-- The per-file body of the loop in `CodeIndexer.extract_code_chunks`:
`_parse_file` guarded by `except SyntaxError` (log a warning, skip the
file).  The `except UnicodeDecodeError` / `except Exception` arms catch
nothing in the pure model (see `PyFile`). -/
def processFile (f : PyFile) : List Chunk × List LogEntry :=
  match parseFilePy f with
  | .ok cs => (cs, [])
  | .error emsg =>
      ([], [(LogLevel.warning,
             "Syntax error in " ++ f.path ++ ": " ++ emsg ++ ". Skipping file.")])

def processFiles : List PyFile → List Chunk × List LogEntry
  | [] => ([], [])
  | f :: rest =>
      let r := processFile f
      let rs := processFiles rest
      (r.1 ++ rs.1, r.2 ++ rs.2)

/-- One existing target directory inside `extract_code_chunks`:
`logger.info` then the `rglob("*.py")` loop over its files. -/
def processDir (dirPath : String) (files : List PyFile) :
    List Chunk × List LogEntry :=
  let r := processFiles files
  (r.1, (LogLevel.info, "Indexing directory: " ++ dirPath) :: r.2)

def targetDirs : List String := ["models", "engine", "data"]

/-- The `for target_dir in self.target_dirs` loop of
`extract_code_chunks`.  `fs` models the filesystem: for a target
directory name, `none` when `dir_path.exists()` is false, otherwise the
`.py` files found by `rglob`. -/
def extractDirs (sourceDir : String) (fs : String → Option (List PyFile)) :
    List String → List Chunk × List LogEntry
  | [] => ([], [])
  | d :: rest =>
      let dirPath := sourceDir ++ "/" ++ d
      let r := match fs d with
        | none =>
            (([] : List Chunk),
             [(LogLevel.warning, "Directory not found: " ++ dirPath ++ ". Skipping...")])
        | some files => processDir dirPath files
      let rs := extractDirs sourceDir fs rest
      (r.1 ++ rs.1, r.2 ++ rs.2)

/-- `CodeIndexer.extract_code_chunks`: after the directory loop, a zero
chunk total is only logged (`logger.error`), a non-zero total logged as
info; the chunk list is returned unchanged either way. -/
def extractCodeChunks (sourceDir : String) (fs : String → Option (List PyFile)) :
    List Chunk × List LogEntry :=
  let r := extractDirs sourceDir fs targetDirs
  if r.1.isEmpty then
    (r.1, r.2 ++ [(LogLevel.error,
      "No code chunks found! Verify that " ++ sourceDir ++
      " contains Python files in ['models', 'engine', 'data']")])
  else
    (r.1, r.2 ++ [(LogLevel.info,
      "Successfully extracted " ++ toString r.1.length ++ " code chunks")])

/-! ## Build phase (`src/backend/scripts/setup_index.py`) -/

/-- The record persisted by `db.insert_chunks` after `setup_index.main`
mutated the chunk: `text_for_embedding` deleted, `embedding` added.
The vector type is abstract (the encoder is an opaque text-to-vector
function). -/
structure PersistedChunk (V : Type) where
  file_path : String
  name : String
  type : String
  code : String
  docstring : String
  lineno : Nat
  embedding : V
deriving DecidableEq

def persistChunk {V : Type} (c : Chunk) (v : V) : PersistedChunk V :=
  { file_path := c.file_path, name := c.name, type := c.type, code := c.code
    docstring := c.docstring, lineno := c.lineno, embedding := v }

inductive SetupOutcome (V : Type) where
  | dirNotFound (msg : String)
  | success (count : Nat) (persisted : List (PersistedChunk V))
deriving DecidableEq

/-- `setup_index.main`: check the root exists, extract, embed
(`encode_batch` is order-preserving and one-to-one, spec section 4.2),
attach the vectors, delete `text_for_embedding`, clear the collection,
bulk-insert, and print `"Success! Indexed {len(chunks)} code chunks"`. -/
def setupMain (V : Type) (sourceDirExists : Bool) (sourcePath : String)
    (fs : String → Option (List PyFile)) (embed : String → V) : SetupOutcome V :=
  if !sourceDirExists then
    .dirNotFound ("Error: Directory " ++ sourcePath ++ " not found")
  else
    let chunks := (extractCodeChunks sourcePath fs).1
    let texts := chunks.map (fun c => c.text_for_embedding)
    let embeddings := texts.map embed
    let withEmbedding := (chunks.zip embeddings).map (fun p => persistChunk p.1 p.2)
    .success chunks.length withEmbedding

/-! ## Answer synthesizer (`src/backend/src/generator.py`)

The retrieved chunk dicts the `/ask` endpoint hands to
`ResponseGenerator.generate` come from `VectorDB.search`, whose
`$project` stage keeps exactly `file_path, name, type, code, docstring,
lineno` (plus the similarity score, which the generator never reads).
A dict is modelled with every field optional so that a malformed dict —
one missing a required key — is expressible; `d[k]` on a missing key is
`KeyError` (`pyGet`). -/

structure ChunkDict where
  file_path : Option String
  name : Option String
  type : Option String
  code : Option String
  docstring : Option String
  lineno : Option Nat
deriving DecidableEq

/-- The dict `VectorDB.search` returns for a persisted chunk: all six
projected fields present. -/
def chunkToDict (c : Chunk) : ChunkDict :=
  { file_path := some c.file_path, name := some c.name, type := some c.type
    code := some c.code, docstring := some c.docstring, lineno := some c.lineno }

/-- JSON value, for `response.json()` of the OpenRouter call. -/
inductive JVal where
  | jnull
  | jbool (b : Bool)
  | jnum (n : Int)
  | jstr (s : String)
  | jarr (xs : List JVal)
  | jobj (fields : List (String × JVal))

/-- Python truthiness (`if not data`, `if not data["choices"]`). -/
def jFalsy : JVal → Bool
  | .jnull => true
  | .jbool b => !b
  | .jnum n => n == 0
  | .jstr s => s == ""
  | .jarr xs => xs.isEmpty
  | .jobj fs => fs.isEmpty

mutual
/-- Python `repr`-style rendering, as an f-string `{data}` interpolation
prints a parsed JSON payload (dict/list/str/int/bool/None). -/
def jRepr : JVal → String
  | .jnull => "None"
  | .jbool true => "True"
  | .jbool false => "False"
  | .jnum n => toString n
  | .jstr s => "'" ++ s ++ "'"
  | .jarr xs => "[" ++ jReprList xs ++ "]"
  | .jobj fs => "\x7b" ++ jReprFields fs ++ "\x7d"
def jReprList : List JVal → String
  | [] => ""
  | [x] => jRepr x
  | x :: xs => jRepr x ++ ", " ++ jReprList xs
def jReprFields : List (String × JVal) → String
  | [] => ""
  | [p] => "'" ++ p.1 ++ "': " ++ jRepr p.2
  | p :: ps => "'" ++ p.1 ++ "': " ++ jRepr p.2 ++ ", " ++ jReprFields ps
end

instance : BEq JVal := ⟨fun a b => jRepr a == jRepr b⟩

/-- Python `sub in s` on lists of characters: `sub` occurs contiguously. -/
def listContainsSub (sub : List Char) : List Char → Bool
  | [] => sub.isEmpty
  | c :: rest => List.isPrefixOf sub (c :: rest) || listContainsSub sub rest

/-- Python `"k" in v`: key membership for a dict, element membership for a
list, substring test for a string, `TypeError` otherwise. -/
def jHasKey (v : JVal) (k : String) : Except PyErr Bool :=
  match v with
  | .jobj fs => .ok (fs.any (fun p => p.1 == k))
  | .jarr xs => .ok (xs.any (fun x => x == JVal.jstr k))
  | .jstr s => .ok (listContainsSub k.data s.data)
  | _ => .error (.typeError "argument of type is not iterable")

/-- Python `v[k]` for a string key. -/
def jGetKey (v : JVal) (k : String) : Except PyErr JVal :=
  match v with
  | .jobj fs =>
      match fs.lookup k with
      | some x => .ok x
      | none => .error (.keyError k)
  | .jarr _ => .error (.typeError "list indices must be integers or slices, not str")
  | .jstr _ => .error (.typeError "string indices must be integers")
  | _ => .error (.typeError "object is not subscriptable")

/-- Python `v[0]`. -/
def jIndex0 (v : JVal) : Except PyErr JVal :=
  match v with
  | .jarr (x :: _) => .ok x
  | .jarr [] => .error (.indexError "list index out of range")
  | .jstr s =>
      match s.data with
      | c :: _ => .ok (.jstr (String.mk [c]))
      | [] => .error (.indexError "string index out of range")
  | .jobj _ => .error (.keyError "0")
  | _ => .error (.typeError "object is not subscriptable")

/-- The value `data["choices"][0]["message"]["content"]` as the `str`
return of `generate` (a string payload passes through verbatim; the
Python code does not check the type of a non-string content). -/
def jAsAnswer : JVal → String
  | .jstr s => s
  | v => jRepr v

/-- The structured result of `requests.post(...)`: HTTP status,
`response.text` (raw body), and the `response.json()` outcome (a decode
failure raises `json.JSONDecodeError`, a `ValueError` subclass). -/
structure HttpResponse where
  status_code : Nat
  text : String
  json : Except String JVal

/-- One block of `ResponseGenerator._format_context`: the `purpose`
first-line reduction followed by the f-string (whose interpolations
evaluate `chunk['file_path']`, `chunk['name']`, `chunk['type']`,
`chunk['lineno']`, `chunk['code']` in that order). `'='*30` is the
30-character rule. -/
def formatBlock (i total : Nat) (d : ChunkDict) : Except PyErr String := do
  let docstring_line := d.docstring.getD ""
  let purpose := if docstring_line = "" then "No description"
    else (splitLines docstring_line).headD ""
  let fp ← pyGet d.file_path "file_path"
  let nm ← pyGet d.name "name"
  let ty ← pyGet d.type "type"
  let ln ← pyGet d.lineno "lineno"
  let cd ← pyGet d.code "code"
  pure ("=== CODE CHUNK [" ++ toString i ++ "/" ++ toString total ++ "] ===\n" ++
        "File: " ++ fp ++ "\n" ++
        "Function/Class: " ++ nm ++ " (" ++ ty ++ ")\n" ++
        "Lines: " ++ toString ln ++ "\n" ++
        "Purpose: " ++ purpose ++ "\n" ++
        "---\n" ++
        cd ++ "\n" ++
        "==============================")

/-- `ResponseGenerator._format_context`: `enumerate(chunks, 1)` and a
`"\n\n"` join. -/
def formatContext (chunks : List ChunkDict) : Except PyErr String := do
  let total := chunks.length
  let blocks ← (List.enumFrom 1 chunks).mapM (fun p => formatBlock p.1 total p.2)
  pure ("\n\n".intercalate blocks)

/-- The prompt template of `ResponseGenerator.generate` (verbatim, with
the formatted context and the question substituted). -/
def promptText (context question : String) : String :=
  "You are an expert assistant for the Ultralytics YOLO codebase. Your role is to help developers understand and use YOLO by analyzing source code.\n\nINSTRUCTIONS:\n1. Answer ONLY using the provided code context below\n2. Provide working code examples when applicableAlso cite specific files and line numbers when referencing code\n3. If the context doesn't fully answer the question, say so explicitly\n4. For standard YOLO questions, prefer basic implementations over specialized variants\n\nCODE CONTEXT:\n" ++
  context ++
  "\n\nQUESTION: " ++ question ++
  "\n\nRESPONSE FORMAT:\n- Start with a direct answer in few sentences\n- Provide a minimal working example if applicable\n- Explain implementation details with code references\n- Note any caveats or limitations"

/-- The per-chunk `logger.debug` loop of `generate` (lines 29-31), which
runs before the guarded region and reads `chunk['name']`,
`chunk['type']`, `chunk['file_path']`, `chunk['lineno']` with plain
(raising) dict access. -/
def logChunks (chunks : List ChunkDict) : Except PyErr Unit :=
  (List.enumFrom 1 chunks).forM (fun p => do
    let nm ← pyGet p.2.name "name"
    let ty ← pyGet p.2.type "type"
    let fp ← pyGet p.2.file_path "file_path"
    let ln ← pyGet p.2.lineno "lineno"
    let _ := "[" ++ toString p.1 ++ "] " ++ nm ++ " (" ++ ty ++ ") - " ++
             fp ++ ":" ++ toString ln
    pure ())

/-- The `try:` block of `ResponseGenerator.generate` (lines 62-112):
API-key check, the HTTP call (modelled by `post`, `.error m` being a
`requests` transport exception with message `m`), the non-200 check
(raising `Exception(f"API returned {status}: {body}")`), and the payload
validation chain. -/
def generateTry (apiKey : String) (post : Except String HttpResponse) :
    Except PyErr String := do
  if apiKey = "" ∨ apiKey = "None" then
    throw (PyErr.valueError "OPENROUTER_API_KEY not found in .env file!")
  match post with
  | .error m => throw (PyErr.genericError m)
  | .ok resp =>
    if resp.status_code ≠ 200 then
      throw (PyErr.genericError
        ("API returned " ++ toString resp.status_code ++ ": " ++ resp.text))
    else do
      let data ← match resp.json with
        | .error m => throw (PyErr.valueError m)
        | .ok v => pure v
      if jFalsy data then
        throw (PyErr.valueError "Empty response from API")
      else do
        let hasChoices ← jHasKey data "choices"
        if !hasChoices then
          throw (PyErr.valueError ("No 'choices' in response. Got: " ++ jRepr data))
        else do
          let choices ← jGetKey data "choices"
          if jFalsy choices then
            throw (PyErr.valueError "Empty 'choices' array in response")
          else do
            let c0 ← jIndex0 choices
            let hasMsg ← jHasKey c0 "message"
            if !hasMsg then
              throw (PyErr.valueError ("No 'message' in choice. Got: " ++ jRepr c0))
            else do
              let msg ← jGetKey c0 "message"
              let hasContent ← jHasKey msg "content"
              if !hasContent then
                throw (PyErr.valueError ("No 'content' in message. Got: " ++ jRepr msg))
              else do
                let content ← jGetKey msg "content"
                pure (jAsAnswer content)

/-- `ResponseGenerator.generate`: context formatting, prompt assembly and
the chunk logging loop run UNGUARDED (an exception there propagates to
the caller); only from the API-key check on does the
`except Exception: return f"Error generating response: {str(e)}"`
handler apply. -/
def generate (apiKey question : String) (chunks : List ChunkDict)
    (post : Except String HttpResponse) : Except PyErr String := do
  let context ← formatContext chunks
  let _prompt := promptText context question
  logChunks chunks
  match generateTry apiKey post with
  | .ok answer => pure answer
  | .error e => pure ("Error generating response: " ++ strOfErr e)

/-! ## Query phase (`src/backend/src/main.py`, the `/ask` endpoint)

`ask_question` is modelled with its three collaborators as oracles:
`encode` (`Embedder.encode`), `search` (`VectorDB.search`, whose `top_k`
is forwarded untouched as the `$vectorSearch` `limit`), and `gen`
(`ResponseGenerator.generate`, whose `Except.error` is an exception the
generator let escape).  The trace records the outbound calls in the
order the handler makes them.

Exception semantics of the handler: FastAPI's `HTTPException` subclasses
`Exception`, so the `raise HTTPException(status_code=404, ...)` inside
the `try:` block is caught by the final `except Exception as e:` and
re-raised as `HTTPException(status_code=500, detail=str(e))`, where
Starlette's `str(e)` is `f"{e.status_code}: {e.detail}"`. -/

structure SourceEntry where
  file : String
  name : String
  type : String
  line : Nat
deriving DecidableEq

structure AnswerResp where
  question : String
  answer : String
  sources : List SourceEntry
deriving DecidableEq

inductive AskOutcome where
  | response (question answer : String) (sources : List SourceEntry)
  | httpError (status : Nat) (detail : String)
deriving DecidableEq

inductive CallEvent where
  | embedCall (text : String)
  | searchCall (top_k : Int)
  | generateCall
deriving DecidableEq

/-- The source-citation list comprehension of `ask_question`
(`r["file_path"]`, `r["name"]`, `r["type"]`, `r["lineno"]` with raising
dict access). -/
def buildSources (results : List ChunkDict) : Except PyErr (List SourceEntry) :=
  results.mapM (fun r => do
    let f ← pyGet r.file_path "file_path"
    let n ← pyGet r.name "name"
    let t ← pyGet r.type "type"
    let l ← pyGet r.lineno "lineno"
    pure { file := f, name := n, type := t, line := l })

/-- The `try:` block of `ask_question`: embed the question, search with
the request's `top_k` (no validation of any kind precedes either call),
raise a 404 `HTTPException` on an empty result list, generate the
answer, build the citations. -/
def askTry {V : Type} (encode : String → V) (search : V → Int → List ChunkDict)
    (gen : String → List ChunkDict → Except PyErr String)
    (question : String) (top_k : Int) :
    Except PyErr AnswerResp × List CallEvent :=
  let query_vector := encode question
  let results := search query_vector top_k
  let tr := [CallEvent.embedCall question, CallEvent.searchCall top_k]
  if results.isEmpty then
    (.error (.httpException 404 "No relevant code found"), tr)
  else
    match gen question results with
    | .error e => (.error e, tr ++ [CallEvent.generateCall])
    | .ok answer =>
        match buildSources results with
        | .error e => (.error e, tr ++ [CallEvent.generateCall])
        | .ok sources =>
            (.ok { question := question, answer := answer, sources := sources },
             tr ++ [CallEvent.generateCall])

/-- `ask_question` as the caller observes it: a normal return becomes the
`AnswerResponse`; any exception `e` from the `try:` block — raised 404
`HTTPException` included — is converted by `except Exception as e:` into
`HTTPException(500, detail=str(e))`. -/
def askQuestion {V : Type} (encode : String → V)
    (search : V → Int → List ChunkDict)
    (gen : String → List ChunkDict → Except PyErr String)
    (question : String) (top_k : Int) : AskOutcome × List CallEvent :=
  match askTry encode search gen question top_k with
  | (.ok r, tr) => (.response r.question r.answer r.sources, tr)
  | (.error e, tr) => (.httpError 500 (strOfErr e), tr)

/-! ## Helper lemmas about the synthesizer -/

@[simp] theorem except_ok_bind {ε α β : Type} (a : α) (f : α → Except ε β) :
    (Except.ok a : Except ε α) >>= f = f a := rfl

@[simp] theorem except_error_bind {ε α β : Type} (e : ε) (f : α → Except ε β) :
    (Except.error e : Except ε α) >>= f = Except.error e := rfl

@[simp] theorem except_map_ok {ε α β : Type} (a : α) (f : α → β) :
    f <$> (Except.ok a : Except ε α) = Except.ok (f a) := rfl

@[simp] theorem except_map_error {ε α β : Type} (e : ε) (f : α → β) :
    f <$> (Except.error e : Except ε α) = Except.error e := rfl

@[simp] theorem except_throw {ε α : Type} (e : ε) :
    (throw e : Except ε α) = Except.error e := rfl

/-- The chunk dicts handed to the synthesizer carry every key it reads
with plain dict access. -/
def RequiredKeys (chunks : List ChunkDict) : Prop :=
  ∀ c ∈ chunks, c.file_path.isSome ∧ c.name.isSome ∧ c.type.isSome
    ∧ c.lineno.isSome ∧ c.code.isSome

theorem formatBlock_eq (i total : Nat) (c : ChunkDict) (fp nm ty : String)
    (ln : Nat) (cd : String)
    (h1 : c.file_path = some fp) (h2 : c.name = some nm) (h3 : c.type = some ty)
    (h4 : c.lineno = some ln) (h5 : c.code = some cd) :
    formatBlock i total c
      = .ok ("=== CODE CHUNK [" ++ toString i ++ "/" ++ toString total ++ "] ===\n" ++
             "File: " ++ fp ++ "\n" ++
             "Function/Class: " ++ nm ++ " (" ++ ty ++ ")\n" ++
             "Lines: " ++ toString ln ++ "\n" ++
             "Purpose: " ++ (if c.docstring.getD "" = "" then "No description"
                             else (splitLines (c.docstring.getD "")).headD "") ++ "\n" ++
             "---\n" ++
             cd ++ "\n" ++
             "==============================") := by
  simp only [formatBlock, pyGet, h1, h2, h3, h4, h5]
  rfl

theorem formatBlock_ok (i total : Nat) (c : ChunkDict)
    (h : c.file_path.isSome ∧ c.name.isSome ∧ c.type.isSome
      ∧ c.lineno.isSome ∧ c.code.isSome) :
    ∃ s, formatBlock i total c = .ok s := by
  obtain ⟨h1, h2, h3, h4, h5⟩ := h
  rw [Option.isSome_iff_exists] at h1 h2 h3 h4 h5
  obtain ⟨fp, h1⟩ := h1
  obtain ⟨nm, h2⟩ := h2
  obtain ⟨ty, h3⟩ := h3
  obtain ⟨ln, h4⟩ := h4
  obtain ⟨cd, h5⟩ := h5
  exact ⟨_, formatBlock_eq i total c fp nm ty ln cd h1 h2 h3 h4 h5⟩

theorem formatBlocks_ok (total : Nat) :
    ∀ (chunks : List ChunkDict) (i : Nat), RequiredKeys chunks →
      ∃ out, (List.enumFrom i chunks).mapM (fun p => formatBlock p.1 total p.2)
        = .ok out := by
  intro chunks
  induction chunks with
  | nil => intro i _; exact ⟨[], rfl⟩
  | cons c rest ih =>
      intro i h
      obtain ⟨s, hs⟩ := formatBlock_ok i total c (h c (by simp))
      obtain ⟨out, hout⟩ := ih (i + 1) (fun x hx => h x (by simp [hx]))
      refine ⟨s :: out, ?_⟩
      simp only [List.enumFrom, List.mapM_cons, hs, hout]
      rfl

theorem formatContext_ok (chunks : List ChunkDict) (h : RequiredKeys chunks) :
    ∃ s, formatContext chunks = .ok s := by
  obtain ⟨out, hout⟩ := formatBlocks_ok chunks.length chunks 1 h
  refine ⟨"\n\n".intercalate out, ?_⟩
  simp only [formatContext]
  rw [hout]
  rfl

theorem logChunks_ok (chunks : List ChunkDict) (h : RequiredKeys chunks) :
    logChunks chunks = .ok () := by
  unfold logChunks
  generalize (1 : Nat) = i
  induction chunks generalizing i with
  | nil => rfl
  | cons c rest ih =>
      obtain ⟨hfp, hnm, hty, hln, _⟩ := h c (by simp)
      rw [Option.isSome_iff_exists] at hfp hnm hty hln
      obtain ⟨fp, hfp⟩ := hfp
      obtain ⟨nm, hnm⟩ := hnm
      obtain ⟨ty, hty⟩ := hty
      obtain ⟨ln, hln⟩ := hln
      have hrec := ih (fun x hx => h x (by simp [hx])) (i + 1)
      simp [pyGet] at hrec
      simp [List.enumFrom, List.forM_cons, pyGet, hfp, hnm, hty, hln, hrec]

/-! ## Concrete fixtures -/

/-- The parsed form of a file whose whole content is
`def add(a, b): return a + b`: one `FunctionDef` named `add` on line 1
ending on line 1, no docstring; its children in `ast.walk` order are the
`arguments` node and the `Return` statement (with its expression
subtree), none of which is a definition node. -/
def addFileC7 : PyFile :=
  { path := "/yolo/models/add.py"
    relPath := "models/add.py"
    source := "def add(a, b): return a + b"
    parsed := .ok [PyNode.mk .functionDef "add" 1 (some 1) none
      [PyNode.mk .other "" 1 (some 1) none [],
       PyNode.mk .other "" 1 (some 1) none
         [PyNode.mk .other "" 1 (some 1) none
           [PyNode.mk .other "" 1 (some 1) none [],
            PyNode.mk .other "" 1 (some 1) none []]]]] }

/-- A directory layout whose only eligible file is `addFileC7`, in the
`models` target directory. -/
def fsC7 : String → Option (List PyFile) :=
  fun d => if d = "models" then some [addFileC7] else none

/-- A fully populated retrieved chunk dict. -/
def fullDict : ChunkDict :=
  { file_path := some "models/add.py", name := some "add"
    type := some "function", code := some "def add(a, b): return a + b"
    docstring := some "", lineno := some 1 }

/-! ## Claims -/

/-- C1: the claim says an empty retrieval set yields a distinct HTTP 404
not-found outcome.  The code raises `HTTPException(404, "No relevant
code found")` inside the `try:` block, but `HTTPException` subclasses
`Exception`, so the blanket `except Exception as e:` catches it and
re-raises `HTTPException(500, str(e))`: the caller observes a generic
HTTP 500 whose detail string is `"404: No relevant code found"`, not a
404.  This theorem evaluates the handler at the failing input (any
question against an empty index). -/
theorem c1_empty_retrieval_yields_500 :
    askQuestion (V := Nat) (fun _ => 0) (fun _ _ => []) (fun _ _ => .ok "unused")
      "What is YOLO?" 5
    = (AskOutcome.httpError 500 "404: No relevant code found",
       [CallEvent.embedCall "What is YOLO?", CallEvent.searchCall 5]) := rfl

/-- C2 counterexample: a run over a source tree with none of the target
directories yields zero chunks, yet `extract_code_chunks` returns the
empty list to its caller as an ordinary value and `setup_index.main`
proceeds through embedding and upload and finishes as a success
(`"Success! Indexed 0 code chunks"`), refuting the claim that a
zero-chunk run is reported to the caller as an error and the build does
not proceed as a success. -/
theorem c2_zero_chunks_reported_as_success :
    (extractCodeChunks "/yolo" (fun _ => none)).1 = []
    ∧ setupMain Nat true "/yolo" (fun _ => none) (fun _ => 0)
      = SetupOutcome.success 0 [] :=
  ⟨rfl, rfl⟩

/-- C3 counterexample: a request with `top_k = 0` is not rejected as an
input error: the handler makes the embedding call and the vector-store
search (with `top_k = 0` forwarded as the store's `limit`), and the
outcome is whatever those calls lead to (here the 500-wrapped 404),
refuting the claim that non-positive `top_k` is rejected before any
network or store call. -/
theorem c3_nonpositive_topk_not_rejected :
    (askQuestion (V := Nat) (fun _ => 0) (fun _ _ => [])
        (fun _ _ => .ok "unused") "q" 0).2
      = [CallEvent.embedCall "q", CallEvent.searchCall 0]
    ∧ (askQuestion (V := Nat) (fun _ => 0) (fun _ _ => [])
        (fun _ _ => .ok "unused") "q" 0).1
      = AskOutcome.httpError 500 "404: No relevant code found" :=
  ⟨rfl, rfl⟩

/-- C6 counterexample: for a function whose docstring is
`"Line one.\nLine two."`, the `docstring` field stored in the extracted
chunk is the whole docstring, not its first line, refuting the claim
that the stored field equals the first line of the attached
documentation string. -/
theorem c6_chunk_stores_whole_docstring :
    (extractNode
        (PyNode.mk .functionDef "f" 1 (some 4) (some "Line one.\nLine two.") [])
        "def f():\n    d\n    d\n    pass" "models/f.py").docstring
      = "Line one.\nLine two."
    ∧ ((splitLines "Line one.\nLine two.").headD "") = "Line one."
    ∧ "Line one.\nLine two." ≠ "Line one." := by
  refine ⟨rfl, rfl, ?_⟩
  decide

/-- C7: indexing a directory tree whose single eligible file contains
exactly `def add(a, b): return a + b` (no doc comment) yields exactly
one chunk, with name `add`, kind `function` and start line 1 (and, in
full: the verbatim single-line source as its code, an empty docstring,
and the derived embedding text). -/
theorem c7_single_add_function :
    (extractCodeChunks "/yolo" fsC7).1
      = [{ file_path := "models/add.py", name := "add", type := "function"
           code := "def add(a, b): return a + b", docstring := ""
           lineno := 1
           text_for_embedding := "add\n\ndef add(a, b): return a + b" }] := rfl

/-- C10: the synthesizer's no-raise guarantee does not cover malformed
chunk metadata: for a chunk dict missing any one of the required keys
`file_path`, `name`, `type`, `lineno`, `code`, `generate` raises the
`KeyError` past its boundary (the context formatting and per-chunk
logging run before the `try:` block) instead of returning an error
string. -/
theorem c10_generate_raises_on_missing_key :
    generate "sk-key" "q" [{ fullDict with file_path := none }] (.error "net")
      = .error (.keyError "file_path")
    ∧ generate "sk-key" "q" [{ fullDict with name := none }] (.error "net")
      = .error (.keyError "name")
    ∧ generate "sk-key" "q" [{ fullDict with type := none }] (.error "net")
      = .error (.keyError "type")
    ∧ generate "sk-key" "q" [{ fullDict with lineno := none }] (.error "net")
      = .error (.keyError "lineno")
    ∧ generate "sk-key" "q" [{ fullDict with code := none }] (.error "net")
      = .error (.keyError "code") :=
  ⟨rfl, rfl, rfl, rfl, rfl⟩

theorem extractCodeChunks_fst (sd : String) (fs : String → Option (List PyFile)) :
    (extractCodeChunks sd fs).1 = (extractDirs sd fs targetDirs).1 := by
  simp only [extractCodeChunks]
  split <;> rfl

theorem askQuestion_snd {V : Type} (encode : String → V)
    (search : V → Int → List ChunkDict)
    (gen : String → List ChunkDict → Except PyErr String)
    (question : String) (top_k : Int) :
    (askQuestion encode search gen question top_k).2
      = (askTry encode search gen question top_k).2 := by
  unfold askQuestion
  rcases h : askTry encode search gen question top_k with ⟨r, tr⟩
  cases r <;> simp

/-- C2 amended: a run that yields zero chunks is only logged — the log
gains a `logger.error` entry — while `extract_code_chunks` returns the
empty list to its caller as an ordinary value and `setup_index.main`
completes as a success reporting 0 indexed chunks. -/
theorem c2_zero_chunks_only_logged (V : Type) (sd : String)
    (fs : String → Option (List PyFile)) (embed : String → V)
    (h : (extractCodeChunks sd fs).1 = []) :
    (LogLevel.error, "No code chunks found! Verify that " ++ sd ++
        " contains Python files in ['models', 'engine', 'data']")
      ∈ (extractCodeChunks sd fs).2
    ∧ setupMain V true sd fs embed = SetupOutcome.success 0 [] := by
  have hdirs : (extractDirs sd fs targetDirs).1 = [] := by
    rw [← extractCodeChunks_fst]; exact h
  constructor
  · simp only [extractCodeChunks, hdirs]
    simp
  · simp [setupMain, h]

/-- C2 amended, witness: the empty filesystem. -/
theorem c2_zero_chunks_only_logged_witness :
    (LogLevel.error, "No code chunks found! Verify that " ++ "/yolo" ++
        " contains Python files in ['models', 'engine', 'data']")
      ∈ (extractCodeChunks "/yolo" (fun _ => none)).2
    ∧ setupMain Nat true "/yolo" (fun _ => none) (fun _ => 0)
      = SetupOutcome.success 0 [] :=
  c2_zero_chunks_only_logged Nat "/yolo" (fun _ => none) (fun _ => 0) rfl

/-- C3 amended: `ask_question` performs no validation of `top_k` at all:
for every request — non-positive `top_k` included — the embedding call
is made and then the vector-store search is invoked with the request's
`top_k` forwarded unchanged; no input-error rejection precedes them. -/
theorem c3_no_topk_validation {V : Type} (encode : String → V)
    (search : V → Int → List ChunkDict)
    (gen : String → List ChunkDict → Except PyErr String)
    (question : String) (top_k : Int) :
    ∃ rest, (askQuestion encode search gen question top_k).2
      = CallEvent.embedCall question :: CallEvent.searchCall top_k :: rest := by
  rw [askQuestion_snd]
  simp only [askTry]
  split
  · exact ⟨[], rfl⟩
  · split
    · exact ⟨[CallEvent.generateCall], rfl⟩
    · split
      · exact ⟨[CallEvent.generateCall], rfl⟩
      · exact ⟨[CallEvent.generateCall], rfl⟩

/-- C5: once a remote call was actually made (a non-empty, non-"None"
API key) over well-formed chunk metadata, (a) a non-success HTTP status
makes `generate` return — not raise — the string
`"Error generating response: API returned {status}: {body}"`, which
carries the status code and the raw response body verbatim; and (b) for
every transport/payload outcome whatsoever (transport failure, empty
payload, missing `choices`, missing nested answer field, ...) `generate`
returns some string, i.e. no exception escapes the synthesizer. -/
theorem c5_http_error_returned_as_string (apiKey question : String)
    (chunks : List ChunkDict) (hk : RequiredKeys chunks)
    (h1 : apiKey ≠ "") (h2 : apiKey ≠ "None") :
    (∀ resp : HttpResponse, resp.status_code ≠ 200 →
      generate apiKey question chunks (.ok resp)
        = .ok ("Error generating response: "
            ++ ("API returned " ++ toString resp.status_code ++ ": " ++ resp.text)))
    ∧ (∀ post : Except String HttpResponse,
        ∃ s, generate apiKey question chunks post = .ok s) := by
  obtain ⟨ctx, hctx⟩ := formatContext_ok chunks hk
  have hlog := logChunks_ok chunks hk
  constructor
  · intro resp hresp
    have hTry : generateTry apiKey (.ok resp)
        = .error (.genericError
            ("API returned " ++ toString resp.status_code ++ ": " ++ resp.text)) := by
      simp [generateTry, h1, h2, hresp]
    simp [generate, hctx, hlog, hTry, strOfErr]
  · intro post
    cases hTry : generateTry apiKey post with
    | ok a => exact ⟨a, by simp [generate, hctx, hlog, hTry]⟩
    | error e =>
        exact ⟨"Error generating response: " ++ strOfErr e,
          by simp [generate, hctx, hlog, hTry]⟩

/-- C5 witness: an HTTP 502 with body `Bad gateway`. -/
theorem c5_http_error_returned_as_string_witness :
    generate "sk-key" "q" [] (.ok ⟨502, "Bad gateway", .error "no json"⟩)
      = .ok ("Error generating response: "
          ++ ("API returned " ++ toString (502 : Nat) ++ ": " ++ "Bad gateway")) :=
  (c5_http_error_returned_as_string "sk-key" "q" []
      (fun c hc => absurd hc (List.not_mem_nil c))
      (by decide) (by decide)).1
    ⟨502, "Bad gateway", .error "no json"⟩
    (by decide)

/-- C6 amended: the `docstring` field stored in an extracted chunk is
the unit's entire documentation string (or the empty string when there
is none); only the synthesizer's context formatting reduces it to its
first line (`Purpose:` field, with placeholder `No description` for an
empty one) at prompt-assembly time. -/
theorem c6_full_docstring_first_line_at_format (n : PyNode) (src rel : String)
    (i total : Nat) :
    (extractNode n src rel).docstring = (PyNode.docstring n).getD ""
    ∧ formatBlock i total (chunkToDict (extractNode n src rel))
      = .ok ("=== CODE CHUNK [" ++ toString i ++ "/" ++ toString total ++ "] ===\n" ++
             "File: " ++ (extractNode n src rel).file_path ++ "\n" ++
             "Function/Class: " ++ (extractNode n src rel).name ++ " ("
               ++ (extractNode n src rel).type ++ ")\n" ++
             "Lines: " ++ toString (extractNode n src rel).lineno ++ "\n" ++
             "Purpose: " ++ (if (extractNode n src rel).docstring = ""
                             then "No description"
                             else (splitLines (extractNode n src rel).docstring).headD "")
               ++ "\n" ++
             "---\n" ++
             (extractNode n src rel).code ++ "\n" ++
             "==============================") := by
  refine ⟨rfl, ?_⟩
  rw [formatBlock_eq i total (chunkToDict (extractNode n src rel))
    (extractNode n src rel).file_path (extractNode n src rel).name
    (extractNode n src rel).type (extractNode n src rel).lineno
    (extractNode n src rel).code rfl rfl rfl rfl rfl]
  simp [chunkToDict]

/-! ## Helper lemmas about the extraction run -/

theorem processFiles_append (a b : List PyFile) :
    processFiles (a ++ b)
      = ((processFiles a).1 ++ (processFiles b).1,
         (processFiles a).2 ++ (processFiles b).2) := by
  induction a with
  | nil => simp [processFiles]
  | cons f rest ih => simp [processFiles, ih]

theorem processFile_syntaxError (f : PyFile) (ln : Nat) (msg : String)
    (h : f.parsed = .error (ln, msg)) :
    processFile f
      = ([], [(LogLevel.warning, "Syntax error in " ++ f.path ++ ": "
          ++ ("Invalid Python syntax at line " ++ toString ln ++ ": " ++ msg)
          ++ ". Skipping file.")]) := by
  simp [processFile, parseFilePy, h]

theorem extractDirs_chunks_skip (sd d : String) (fs : String → Option (List PyFile))
    (pre post : List PyFile) (bad : PyFile)
    (hbad : (processFile bad).1 = [])
    (hfs : fs d = some (pre ++ bad :: post)) :
    ∀ dirs : List String,
      (extractDirs sd fs dirs).1
        = (extractDirs sd (fun x => if x = d then some (pre ++ post) else fs x) dirs).1 := by
  intro dirs
  induction dirs with
  | nil => rfl
  | cons d' rest ih =>
      simp only [extractDirs]
      by_cases hd : d' = d
      · subst hd
        rw [hfs]
        simp only [if_pos rfl]
        have hsplit : (processFiles (pre ++ bad :: post)).1
            = (processFiles (pre ++ post)).1 := by
          rw [processFiles_append]
          have : processFiles (bad :: post)
              = ((processFile bad).1 ++ (processFiles post).1,
                 (processFile bad).2 ++ (processFiles post).2) := by
            simp [processFiles]
          rw [this, hbad, processFiles_append]
          simp
        simp [processDir, hsplit, ih]
      · rw [if_neg hd]
        cases hfs' : fs d' with
        | none => simp [hfs', ih]
        | some files => simp [hfs', ih]

theorem extractDirs_logs_mem (sd d : String) (fs : String → Option (List PyFile))
    (files : List PyFile) (hfs : fs d = some files) (l : LogEntry)
    (hl : l ∈ (processDir (sd ++ "/" ++ d) files).2) :
    ∀ dirs : List String, d ∈ dirs → l ∈ (extractDirs sd fs dirs).2 := by
  intro dirs
  induction dirs with
  | nil => intro h; cases h
  | cons d' rest ih =>
      intro hmem
      simp only [extractDirs]
      rcases List.mem_cons.mp hmem with heq | htail
      · subst heq
        rw [hfs]
        exact List.mem_append_left _ hl
      · cases hfs' : fs d' with
        | none => exact List.mem_append_right _ (ih htail)
        | some fl => exact List.mem_append_right _ (ih htail)

theorem extractCodeChunks_snd_mem (sd : String) (fs : String → Option (List PyFile))
    (l : LogEntry) (hl : l ∈ (extractDirs sd fs targetDirs).2) :
    l ∈ (extractCodeChunks sd fs).2 := by
  simp only [extractCodeChunks]
  split <;> exact List.mem_append_left _ hl

/-- C4: a file with a Python syntax error is skipped and only that file:
the run's chunk list is exactly the chunk list of the same run with the
offending file absent (every other valid file of every directory still
contributes), and — when the directory is one of the scanned targets —
the run's log records the warning carrying the offending line number and
message.  No syntax error aborts the directory or the run. -/
theorem c4_syntax_error_skips_only_that_file (sd d : String)
    (fs : String → Option (List PyFile)) (pre post : List PyFile) (bad : PyFile)
    (ln : Nat) (msg : String)
    (hbad : bad.parsed = .error (ln, msg))
    (hfs : fs d = some (pre ++ bad :: post)) :
    (extractCodeChunks sd fs).1
      = (extractCodeChunks sd
          (fun x => if x = d then some (pre ++ post) else fs x)).1
    ∧ (d ∈ targetDirs →
        (LogLevel.warning, "Syntax error in " ++ bad.path ++ ": "
          ++ ("Invalid Python syntax at line " ++ toString ln ++ ": " ++ msg)
          ++ ". Skipping file.") ∈ (extractCodeChunks sd fs).2) := by
  have hpf := processFile_syntaxError bad ln msg hbad
  constructor
  · rw [extractCodeChunks_fst, extractCodeChunks_fst]
    exact extractDirs_chunks_skip sd d fs pre post bad (by rw [hpf]) hfs targetDirs
  · intro hd
    apply extractCodeChunks_snd_mem
    apply extractDirs_logs_mem sd d fs _ hfs _ _ targetDirs hd
    show _ ∈ (processDir (sd ++ "/" ++ d) (pre ++ bad :: post)).2
    simp only [processDir, processFiles_append]
    refine List.mem_cons_of_mem _ (List.mem_append_right _ ?_)
    have : processFiles (bad :: post)
        = ((processFile bad).1 ++ (processFiles post).1,
           (processFile bad).2 ++ (processFiles post).2) := by
      simp [processFiles]
    rw [this, hpf]
    simp

/-- C4 witness: a run over the `models` directory holding one valid file
and one file with a syntax error on line 3. -/
def goodFileC4 : PyFile :=
  { path := "/yolo/models/good.py"
    relPath := "models/good.py"
    source := "def g(): pass"
    parsed := .ok [PyNode.mk .functionDef "g" 1 (some 1) none []] }

def badFileC4 : PyFile :=
  { path := "/yolo/models/bad.py"
    relPath := "models/bad.py"
    source := "def oops(:\n    pass\ndef"
    parsed := .error (3, "invalid syntax") }

def fsC4 : String → Option (List PyFile) :=
  fun x => if x = "models" then some ([goodFileC4] ++ badFileC4 :: []) else none

theorem c4_syntax_error_skips_only_that_file_witness :
    (extractCodeChunks "/yolo" fsC4).1
      = (extractCodeChunks "/yolo"
          (fun x => if x = "models" then some ([goodFileC4] ++ []) else fsC4 x)).1
    ∧ ("models" ∈ targetDirs →
        (LogLevel.warning, "Syntax error in " ++ badFileC4.path ++ ": "
          ++ ("Invalid Python syntax at line " ++ toString (3 : Nat) ++ ": " ++ "invalid syntax")
          ++ ". Skipping file.") ∈ (extractCodeChunks "/yolo" fsC4).2) :=
  c4_syntax_error_skips_only_that_file "/yolo" "models" fsC4 [goodFileC4] []
    badFileC4 3 "invalid syntax" rfl rfl

/-! ## Helper lemmas for the build phase -/

theorem extractNode_text (n : PyNode) (src rel : String) :
    (extractNode n src rel).text_for_embedding
      = (extractNode n src rel).name ++ "\n" ++ (extractNode n src rel).docstring
        ++ "\n" ++ (extractNode n src rel).code := rfl

theorem mem_processFile_eq_extractNode {c : Chunk} {f : PyFile}
    (h : c ∈ (processFile f).1) : ∃ n src rel, c = extractNode n src rel := by
  unfold processFile at h
  cases hp : parseFilePy f with
  | error e => rw [hp] at h; cases h
  | ok cs =>
      rw [hp] at h
      unfold parseFilePy at hp
      cases hparsed : f.parsed with
      | error e2 => rw [hparsed] at hp; cases hp
      | ok body =>
          rw [hparsed] at hp
          have hcs : cs = parseChunks body f.source f.relPath := by
            cases hp; rfl
          subst hcs
          simp only [parseChunks, List.mem_map] at h
          obtain ⟨n, _, hn⟩ := h
          exact ⟨n, f.source, f.relPath, hn.symm⟩

theorem mem_processFiles {c : Chunk} :
    ∀ {files : List PyFile}, c ∈ (processFiles files).1 →
      ∃ f ∈ files, c ∈ (processFile f).1 := by
  intro files
  induction files with
  | nil => intro h; cases h
  | cons f rest ih =>
      intro h
      simp only [processFiles] at h
      rcases List.mem_append.mp h with h1 | h2
      · exact ⟨f, by simp, h1⟩
      · obtain ⟨f2, hf2, hc⟩ := ih h2
        exact ⟨f2, by simp [hf2], hc⟩

theorem mem_extractDirs_eq_extractNode {sd : String}
    {fs : String → Option (List PyFile)} {c : Chunk} :
    ∀ {dirs : List String}, c ∈ (extractDirs sd fs dirs).1 →
      ∃ n src rel, c = extractNode n src rel := by
  intro dirs
  induction dirs with
  | nil => intro h; cases h
  | cons d rest ih =>
      intro h
      simp only [extractDirs] at h
      rcases List.mem_append.mp h with h1 | h2
      · cases hfs : fs d with
        | none => rw [hfs] at h1; cases h1
        | some files =>
            rw [hfs] at h1
            obtain ⟨f, _, hc⟩ := mem_processFiles h1
            exact mem_processFile_eq_extractNode hc
      · exact ih h2

theorem zip_map_self {α β : Type} (l : List α) (g : α → β) :
    l.zip (l.map g) = l.map (fun a => (a, g a)) := by
  induction l with
  | nil => rfl
  | cons a t ih => simp [ih]

/-- C8: every chunk that reaches the bulk-insert step carries
`text_for_embedding` equal to the concatenation of its own `name`,
`docstring` and `code` fields (newline-separated, as `_extract_node`
derives it), the text is exactly what is handed to the encoder, and the
record persisted to the store is the chunk's six metadata fields
unchanged plus the computed `embedding` — the `text_for_embedding` key
is deleted before insertion and does not exist in the persisted record
type. -/
theorem c8_embedding_text_consumed_not_persisted (V : Type) (sd : String)
    (fs : String → Option (List PyFile)) (embed : String → V) :
    (∀ c ∈ (extractCodeChunks sd fs).1,
      c.text_for_embedding = c.name ++ "\n" ++ c.docstring ++ "\n" ++ c.code)
    ∧ setupMain V true sd fs embed
      = SetupOutcome.success (extractCodeChunks sd fs).1.length
          ((extractCodeChunks sd fs).1.map
            (fun c => persistChunk c (embed c.text_for_embedding))) := by
  constructor
  · intro c hc
    rw [extractCodeChunks_fst] at hc
    obtain ⟨n, src, rel, rfl⟩ := mem_extractDirs_eq_extractNode hc
    exact extractNode_text n src rel
  · simp only [setupMain, Bool.not_true, List.map_map]
    rw [zip_map_self]
    simp

/-- C8 witness: the single-function fixture; its one chunk's embedding
text is its name, docstring and code joined by newlines. -/
theorem c8_embedding_text_consumed_not_persisted_witness :
    ({ file_path := "models/add.py", name := "add", type := "function"
       code := "def add(a, b): return a + b", docstring := "", lineno := 1
       text_for_embedding := "add\n\ndef add(a, b): return a + b" } : Chunk).text_for_embedding
      = "add" ++ "\n" ++ "" ++ "\n" ++ "def add(a, b): return a + b" :=
  (c8_embedding_text_consumed_not_persisted Nat "/yolo" fsC7 (fun _ => 0)).1
    { file_path := "models/add.py", name := "add", type := "function"
      code := "def add(a, b): return a + b", docstring := "", lineno := 1
      text_for_embedding := "add\n\ndef add(a, b): return a + b" }
    (by decide)

/-! ## Helper lemmas about the tree walk -/

/-- `m` is reachable from `r` by descending through `body` children zero
or more times (the nodes `ast.walk` visits starting at `r`). -/
inductive Desc : PyNode → PyNode → Prop where
  | refl (n : PyNode) : Desc n n
  | step {n c m : PyNode} (hc : c ∈ n.body) (h : Desc c m) : Desc n m

theorem nodeSize_eq (n : PyNode) : nodeSize n = 1 + nodesSize n.body := by
  cases n; rfl

theorem mem_walkF : ∀ (fuel : Nat) (q : List PyNode) (m : PyNode),
    nodesSize q ≤ fuel → (m ∈ walkF fuel q ↔ ∃ r ∈ q, Desc r m) := by
  intro fuel
  induction fuel with
  | zero =>
      intro q m hq
      cases q with
      | nil => simp [walkF]
      | cons n rest =>
          exfalso
          have h1 : nodesSize (n :: rest) = nodeSize n + nodesSize rest := rfl
          have h2 := nodeSize_eq n
          omega
  | succ fuel ih =>
      intro q m hq
      cases q with
      | nil => simp [walkF]
      | cons n rest =>
          have hfuel : nodesSize (rest ++ n.body) ≤ fuel := by
            have h1 : nodesSize (n :: rest) = nodeSize n + nodesSize rest := rfl
            have h2 := nodeSize_eq n
            have h3 := nodesSize_append rest n.body
            omega
          have hstep : walkF (fuel + 1) (n :: rest) = n :: walkF fuel (rest ++ n.body) := rfl
          rw [hstep]
          constructor
          · intro hm
            rcases List.mem_cons.mp hm with heq | htl
            · exact ⟨n, by simp, heq ▸ Desc.refl m⟩
            · obtain ⟨r, hr, hd⟩ := (ih (rest ++ n.body) m hfuel).mp htl
              rcases List.mem_append.mp hr with h1 | h2
              · exact ⟨r, by simp [h1], hd⟩
              · exact ⟨n, by simp, Desc.step h2 hd⟩
          · rintro ⟨r, hr, hd⟩
            rcases List.mem_cons.mp hr with heq | htl
            · subst heq
              cases hd with
              | refl => simp
              | step hc h =>
                  refine List.mem_cons_of_mem _ ?_
                  exact (ih (rest ++ r.body) m hfuel).mpr
                    ⟨_, List.mem_append_right _ hc, h⟩
            · refine List.mem_cons_of_mem _ ?_
              exact (ih (rest ++ n.body) m hfuel).mpr ⟨r, List.mem_append_left _ htl, hd⟩

theorem mem_walk (body : List PyNode) (m : PyNode) :
    m ∈ walk body ↔ Desc (PyNode.mk .module "" 0 none none body) m := by
  unfold walk
  rw [mem_walkF _ _ _ (Nat.le_refl _)]
  simp

/-- C9: extraction selects exactly the walked nodes satisfying the
`isinstance (FunctionDef, ClassDef)` test; an `async def`
(`ast.AsyncFunctionDef`) node never passes that test, so no selected
node is an async function definition; and every synchronous function or
class definition reachable at any nesting depth (`Desc` from a
top-level statement) has its chunk in the output — nested functions and
methods are each extracted independently. -/
theorem c9_async_never_extracted (src rel : String) (body : List PyNode) :
    (∀ n ∈ (walk body).filter isDefOrClass, n.kind ≠ PyKind.asyncFunctionDef)
    ∧ parseChunks body src rel
      = ((walk body).filter isDefOrClass).map (fun n => extractNode n src rel)
    ∧ (∀ m r, r ∈ body → Desc r m →
        (m.kind = PyKind.functionDef ∨ m.kind = PyKind.classDef) →
        extractNode m src rel ∈ parseChunks body src rel) := by
  refine ⟨?_, rfl, ?_⟩
  · intro n hn
    have hsel := (List.mem_filter.mp hn).2
    unfold isDefOrClass at hsel
    cases hk : n.kind <;> simp [hk] at hsel ⊢
  · intro m r hr hd hkind
    have hm : m ∈ walk body := by
      rw [mem_walk]
      exact Desc.step (by simpa [PyNode.body] using hr) hd
    have hsel : isDefOrClass m = true := by
      unfold isDefOrClass
      rcases hkind with h | h <;> simp [h]
    unfold parseChunks
    exact List.mem_map_of_mem _ (List.mem_filter.mpr ⟨hm, hsel⟩)

/-- C9 witness: a file whose only top-level statement is an `async def`
containing a nested synchronous `def`: the nested definition's chunk is
extracted (while the async wrapper can never pass the selection test,
by the theorem's first conjunct). -/
theorem c9_async_never_extracted_witness :
    extractNode (PyNode.mk .functionDef "inner" 2 (some 3) none [])
        "async def outer():\n    def inner():\n        pass" "models/w.py"
      ∈ parseChunks
          [PyNode.mk .asyncFunctionDef "outer" 1 (some 3) none
            [PyNode.mk .functionDef "inner" 2 (some 3) none []]]
          "async def outer():\n    def inner():\n        pass" "models/w.py" :=
  (c9_async_never_extracted
      "async def outer():\n    def inner():\n        pass" "models/w.py"
      [PyNode.mk .asyncFunctionDef "outer" 1 (some 3) none
        [PyNode.mk .functionDef "inner" 2 (some 3) none []]]).2.2
    (PyNode.mk .functionDef "inner" 2 (some 3) none [])
    (PyNode.mk .asyncFunctionDef "outer" 1 (some 3) none
      [PyNode.mk .functionDef "inner" 2 (some 3) none []])
    (by simp)
    (Desc.step (by simp [PyNode.body]) (Desc.refl _))
    (Or.inl rfl)

end YoloSpec
